import Mathlib

/-!
Verification development for the poorstock fetch-and-extract pipeline.

The Python sources `poorstock.py` and `GetAll.py` are shallowly embedded
below.  HTML parsing (BeautifulSoup) and the CSV layer (pandas) are external
libraries; their outputs are modelled as explicit data (an `HtmlPage` carries
the raw length, the visible text, the title text and the list of tables a
parse would produce; a pandas frame is a list of column names plus rows of
cells).  All functions of the pipeline itself are translated line by line
from the source.
-/

namespace Poorstock

/-- Python `str.lower()` restricted to ASCII case mapping (the markers the
source lowercases are ASCII or Chinese; Chinese is unaffected by `lower`). -/
def toLowerStr (s : String) : String := ⟨s.data.map Char.toLower⟩

/-- Python `needle in hay` substring test on strings, via char lists. -/
def hasSubstrChars [BEq α] : List α → List α → Bool
  | needle, [] => needle.isEmpty
  | needle, a :: as => needle.isPrefixOf (a :: as) || hasSubstrChars needle as

/-- Python `needle in hay` for strings. -/
def hasSubstr (needle hay : String) : Bool :=
  hasSubstrChars needle.data hay.data

/-- Number of (possibly overlapping) occurrences of `needle` in `hay`,
counting every starting position at which `needle` appears.  Used only to
state claims about "occurrences"; the source never counts occurrences. -/
def countOccsChars [BEq α] : List α → List α → Nat
  | _, [] => 0
  | needle, a :: as =>
      (if needle.isPrefixOf (a :: as) then 1 else 0) + countOccsChars needle as

/-- Occurrence count of a marker in a text. -/
def countOccs (needle hay : String) : Nat :=
  countOccsChars needle.data hay.data

/-- A single HTML `<table>` as BeautifulSoup presents it to the scraper:
`rows` is the stripped cell text of each `<tr>` (`find_all(['th','td'])`),
`allText` is `table.get_text()`. -/
structure HtmlTable where
  rows : List (List String)
  allText : String
deriving DecidableEq, Repr

/-- A fetched page as the scraper sees it after parsing: `rawLength` is
`len(html)`, `visibleText` is `soup.get_text()`, `title` is the text of the
`<title>` tag when present, `tables` is `soup.find_all('table')`. -/
structure HtmlPage where
  rawLength : Nat
  visibleText : String
  title : Option String
  tables : List HtmlTable
deriving DecidableEq, Repr

/-- `loading_indicators` of `validate_html_content` (poorstock.py line 200). -/
def loading_indicators : List String := ["載入中", "loading", "請稍候", "資料更新中"]

/-- `EnhancedPoorStockScraper.validate_html_content` (poorstock.py 194-219).
The Python checks `len(html) < 1000`, counts how many of the four loading
indicators occur in the lowercased visible text, and requires at least two
tables. -/
def validate_html_content (p : HtmlPage) : Bool :=
  if p.rawLength < 1000 then false
  else
    let text_content := (toLowerStr p.visibleText)
    let loading_count :=
      (loading_indicators.filter (fun ind => hasSubstr ind text_content)).length
    let has_meaningful_tables : Bool := decide (2 ≤ p.tables.length)
    if 2 < loading_count then false
    else if !has_meaningful_tables then false
    else true

/-- Number of distinct loading indicators present at least once in the
lowercased visible text (the quantity the validator actually thresholds). -/
def loadingIndicatorsPresent (p : HtmlPage) : Nat :=
  (loading_indicators.filter (fun ind => hasSubstr ind (toLowerStr p.visibleText))).length

/-- Prefix match for the regex `202[0-9]/\d{2}/\d{2}` under `re.match`
(anchored at the start of the string, rest of the string unconstrained). -/
def matchDate20 (s : String) : Bool :=
  match s.data with
  | '2' :: '0' :: '2' :: y :: '/' :: m1 :: m2 :: '/' :: d1 :: d2 :: _ =>
      y.isDigit && m1.isDigit && m2.isDigit && d1.isDigit && d2.isDigit
  | _ => false

/-- Prefix match for `202[45]/\d{2}/\d{2}` under `re.match`. -/
def matchDate45 (s : String) : Bool :=
  match s.data with
  | '2' :: '0' :: '2' :: y :: '/' :: m1 :: m2 :: '/' :: d1 :: d2 :: _ =>
      (y == '4' || y == '5') && m1.isDigit && m2.isDigit && d1.isDigit && d2.isDigit
  | _ => false

/-- Prefix match for `202[345]/\d{2}/\d{2}` under `re.match`. -/
def matchDate345 (s : String) : Bool :=
  match s.data with
  | '2' :: '0' :: '2' :: y :: '/' :: m1 :: m2 :: '/' :: d1 :: d2 :: _ =>
      (y == '3' || y == '4' || y == '5') && m1.isDigit && m2.isDigit && d1.isDigit && d2.isDigit
  | _ => false

/-- Spec-side notion of a well-formed zero-padded `year/month/day` date
(`\d{4}/\d{2}/\d{2}`, whole string).  Used only to state C10; the source has
no such general pattern. -/
def isDateShape (s : String) : Bool :=
  match s.data with
  | [y1, y2, y3, y4, '/', m1, m2, '/', d1, d2] =>
      y1.isDigit && y2.isDigit && y3.isDigit && y4.isDigit &&
      m1.isDigit && m2.isDigit && d1.isDigit && d2.isDigit
  | _ => false

/-- Loading markers checked inside a table (poorstock.py line 233). -/
def table_loading_markers : List String := ["載入中", "loading", "請稍候"]

/-- The four OHLC tokens of the current-price heuristic (line 254). -/
def price_tokens : List String := ["開盤", "收盤", "最高", "最低"]

/-- `EnhancedPoorStockScraper.identify_table_by_content` (poorstock.py
221-261).  Role strings are exactly the source's: `loading`,
`daily_prices`, `ownership`, `current_prices`, `unknown`.  Note the Python
`if/elif` shape: when the daily-prices shape test passes but none of the
first three data rows starts with a `202x/../..` date, the `elif` branches
are skipped and the table falls through to `unknown`. -/
def identify_table_by_content (t : HtmlTable) : String :=
  if t.rows.length < 2 then "unknown"
  else
    let all_text := t.allText
    let header_cells := t.rows.headD []
    if table_loading_markers.any (fun l => hasSubstr l all_text) then "loading"
    else if 20 < t.rows.length
        && header_cells.any (fun cell => hasSubstr "日期" cell)
        && header_cells.any (fun cell => hasSubstr "開盤" cell || hasSubstr "收盤" cell) then
      if ((t.rows.drop 1).take 3).any
          (fun cells => !cells.isEmpty && matchDate20 (cells.headD "")) then
        "daily_prices"
      else "unknown"
    else if (5 < t.rows.length && t.rows.length < 60)
        && header_cells.any
          (fun cell => hasSubstr "持股比例" cell || hasSubstr "100張" cell) then
      "ownership"
    else if t.rows.length ≤ 10
        && price_tokens.any (fun price => header_cells.any (fun cell => hasSubstr price cell)) then
      "current_prices"
    else "unknown"

/-- The classification pass of `extract_data_with_validation` (lines
280-282): each table is given a role by content analysis alone. -/
def pageRoles (tables : List HtmlTable) : List String :=
  tables.map identify_table_by_content

/-- One record of `data['daily_prices']` (poorstock.py 347-354). -/
structure PriceBar where
  date : String
  openP : String
  high : String
  low : String
  close : String
  volume : String
deriving DecidableEq, Repr

/-- One record of `data['ownership_data']` (poorstock.py 376-382). -/
structure OwnershipRow where
  date : String
  small : String
  medium : String
  large : String
  total_holders : String
deriving DecidableEq, Repr

/-- Python `dict` insertion: overwrite in place if the key exists, else
append.  Models `data['current_prices'][key] = value`. -/
def dictInsert (d : List (String × String)) (k v : String) : List (String × String) :=
  if d.any (fun p => p.1 == k) then
    d.map (fun p => if p.1 == k then (k, v) else p)
  else d ++ [(k, v)]

/-- Python `dict.get(key, default)`. -/
def dictGet (d : List (String × String)) (k dflt : String) : String :=
  ((d.find? (fun p => p.1 == k)).map (fun p => p.2)).getD dflt

/-- `extract_current_prices` (poorstock.py 303-331): read key/value rows
from the dedicated current-price table; if fewer than 4 entries were found
and a daily table exists, replace the dict with the four OHLC fields of the
daily table's first data row, provided that row has ≥5 cells and a
`202[45]/../..` date. -/
def extract_current_prices (current_table daily_table : Option HtmlTable) :
    List (String × String) :=
  let fromCurrent : List (String × String) :=
    match current_table with
    | none => []
    | some t =>
        t.rows.foldl (fun d row =>
          if 2 ≤ row.length &&
             price_tokens.any (fun price_key => hasSubstr price_key (row.headD "")) then
            dictInsert d (row.headD "") (row.getD 1 "")
          else d) []
  if fromCurrent.length < 4 then
    match daily_table with
    | some t =>
        if 2 ≤ t.rows.length then
          let cells := t.rows.getD 1 []
          if 5 ≤ cells.length && matchDate45 (cells.headD "") then
            [("開盤", cells.getD 1 ""), ("最高", cells.getD 2 ""),
             ("最低", cells.getD 3 ""), ("收盤", cells.getD 4 "")]
          else fromCurrent
        else fromCurrent
    | none => fromCurrent
  else fromCurrent

/-- `extract_daily_prices` (poorstock.py 333-360): every row after the
header with ≥6 cells whose leading cell matches `202[45]/\d{2}/\d{2}`
yields a record; other rows are skipped. -/
def extract_daily_prices : Option HtmlTable → List PriceBar
  | none => []
  | some t =>
      (t.rows.drop 1).filterMap (fun cells =>
        if 6 ≤ cells.length && matchDate45 (cells.headD "") then
          some ⟨cells.headD "", cells.getD 1 "", cells.getD 2 "",
                cells.getD 3 "", cells.getD 4 "", cells.getD 5 ""⟩
        else none)

/-- `extract_ownership_data` (poorstock.py 362-388): every row after the
header with ≥5 cells whose leading cell matches `202[345]/\d{2}/\d{2}`
yields a record. -/
def extract_ownership_data : Option HtmlTable → List OwnershipRow
  | none => []
  | some t =>
      (t.rows.drop 1).filterMap (fun cells =>
        if 5 ≤ cells.length && matchDate345 (cells.headD "") then
          some ⟨cells.headD "", cells.getD 1 "", cells.getD 2 "",
                cells.getD 3 "", cells.getD 4 ""⟩
        else none)

/-- `data` as assembled by `extract_data_with_validation` (lines 268-272). -/
structure ExtractData where
  current_prices : List (String × String)
  daily_prices : List PriceBar
  ownership_data : List OwnershipRow
deriving DecidableEq, Repr

/-- The table-selection loop of `extract_data_with_validation` (lines
275-291): the scan keeps the LAST table classified with each role.
Returns `(daily_table, ownership_table, current_table)`. -/
def selectTables (tables : List HtmlTable) :
    Option HtmlTable × Option HtmlTable × Option HtmlTable :=
  tables.foldl (fun acc t =>
    let d := acc.1
    let o := acc.2.1
    let c := acc.2.2
    match identify_table_by_content t with
    | "daily_prices" => (some t, o, c)
    | "ownership" => (d, some t, c)
    | "current_prices" => (d, o, some t)
    | _ => (d, o, c)) (none, none, none)

/-- `extract_data_with_validation` (poorstock.py 263-301). -/
def extract_data_with_validation (tables : List HtmlTable) : ExtractData :=
  let sel := selectTables tables
  let daily_table := sel.1
  let ownership_table := sel.2.1
  let current_table := sel.2.2
  { current_prices := extract_current_prices current_table daily_table
    daily_prices := extract_daily_prices daily_table
    ownership_data := extract_ownership_data ownership_table }

/-- Spec-side count of how many of the four named current-price slots
(開盤/最高/最低/收盤) are present as exact keys of the extracted map.  The
claim's "at least 3 of the 4 current-price fields are present" refers to
these named slots; the source instead thresholds the raw dict size. -/
def canonicalFieldCount (current_prices : List (String × String)) : Nat :=
  (price_tokens.filter (fun k => current_prices.any (fun p => p.1 == k))).length

/-- The four row headers of the current-price markdown table, in the order
hard-coded at poorstock.py line 405. -/
def price_headers : List String := ["開盤", "最高", "最低", "收盤"]

/-- `format_current_price_table` (poorstock.py 399-411). -/
def format_current_price_table (current_prices : List (String × String)) : List String :=
  ["| 項目 | 價格 |", "|------|------|"]
  ++ price_headers.map (fun header =>
      "| " ++ header ++ " | " ++ dictGet current_prices header "-" ++ " |")
  ++ [""]

/-- Python `l[-n:]`: the last at-most-`n` elements. -/
def lastN (n : Nat) (l : List α) : List α := l.drop (l.length - n)

/-- One formatted row of the daily-price markdown table (line 423). -/
def fmtDailyRow (r : PriceBar) : String :=
  "| " ++ r.date ++ " | " ++ r.openP ++ " | " ++ r.high ++ " | " ++ r.low
  ++ " | " ++ r.close ++ " | " ++ r.volume ++ " |"

/-- `format_daily_price_table` (poorstock.py 413-426): placeholder sentence
when empty, else header rows, then `reversed(daily_data[-30:])`. -/
def format_daily_price_table (daily_data : List PriceBar) : List String :=
  if daily_data.isEmpty then ["*每日股價資訊載入中...*\n"]
  else
    ["| 日期 | 開盤價 | 最高價 | 最低價 | 收盤價 | 成交量 |",
     "|------|--------|--------|--------|--------|--------|"]
    ++ ((lastN 30 daily_data).reverse.map fmtDailyRow)
    ++ [""]

/-- One formatted row of the ownership markdown table (line 438). -/
def fmtOwnershipRow (r : OwnershipRow) : String :=
  "| " ++ r.date ++ " | " ++ r.small ++ " | " ++ r.medium ++ " | " ++ r.large
  ++ " | " ++ r.total_holders ++ " |"

/-- `format_ownership_table` (poorstock.py 428-441). -/
def format_ownership_table (ownership_data : List OwnershipRow) : List String :=
  if ownership_data.isEmpty then ["*股權分散表載入中...*\n"]
  else
    ["| 日期 | 100張以下持股比例 | 100-1000張持股比例 | 1000張以上持股比例 | 總股東人數 |",
     "|------|-------------------|--------------------|--------------------|----------|"]
    ++ ((lastN 25 ownership_data).reverse.map fmtOwnershipRow)
    ++ [""]

/-- First index at which `needle` occurs in `hay` (Python `str.find`,
`none` for `-1`). -/
def findSubIdx [BEq α] : List α → List α → Option Nat
  | needle, [] => if needle.isEmpty then some 0 else none
  | needle, a :: as =>
      if needle.isPrefixOf (a :: as) then some 0
      else (findSubIdx needle as).map (fun i => i + 1)

/-- Split a char list at every occurrence of `sep` (Python `str.split(sep)`
for a one-char separator; empty pieces are kept). -/
def splitOnChar (sep : Char) : List Char → List (List Char)
  | [] => [[]]
  | c :: cs =>
      match splitOnChar sep cs with
      | [] => [[c]]
      | h :: t => if c = sep then [] :: h :: t else (c :: h) :: t

/-- Python `str.strip()` (ASCII whitespace; the source strips scraped text
that only ever carries ASCII spacing around CJK content). -/
def stripChars (l : List Char) : List Char :=
  ((l.dropWhile Char.isWhitespace).reverse.dropWhile Char.isWhitespace).reverse

/-- `str.strip()` on a string. -/
def stripStr (s : String) : String := ⟨stripChars s.data⟩

/-- Section keywords of `extract_ai_content` (poorstock.py line 455). -/
def ai_section_keywords : List String := ["一、", "二、", "三、", "四、"]

/-- Level keywords of `extract_ai_content` (poorstock.py line 457). -/
def ai_level_keywords : List String := ["支撐", "壓力", "目標"]

/-- `extract_ai_content` (poorstock.py 443-462).  Finds the first `AI`
occurrence (strictly after index 0), slices 8000 chars, splits into
stripped non-empty lines, and classifies each line; at most 50 lines kept. -/
def extract_ai_content (full_text : String) : List String :=
  match findSubIdx "AI".data full_text.data with
  | some ai_start =>
      if 0 < ai_start then
        let ai_section := (full_text.data.drop ai_start).take 8000
        let lines := ((splitOnChar '\n' ai_section).map
            (fun l => (⟨stripChars l⟩ : String))).filter (fun l => !l.isEmpty)
        let out := lines.foldl (fun acc line =>
          if line.length < 20 then acc
          else if ai_section_keywords.any (fun keyword => hasSubstr keyword line) then
            acc ++ ["\n### " ++ line ++ "\n"]
          else if hasSubstr "元" line &&
              ai_level_keywords.any (fun keyword => hasSubstr keyword line) then
            acc ++ ["\n**" ++ line ++ "**\n"]
          else if 30 < line.length &&
              !("http".data.isPrefixOf line.data || "www".data.isPrefixOf line.data
                || "©".data.isPrefixOf line.data) then
            acc ++ [line ++ "\n"]
          else acc) []
        out.take 50
      else []
  | none => []

/-- Character class `[：:\s]` of the date-info regex (ASCII `\s`). -/
def dateSepClass (c : Char) : Bool :=
  c = '：' || c = ':' || c = ' ' || c = '\t' || c = '\n' || c = '\r' ||
  c = '\x0b' || c = '\x0c'

/-- Consume the literal chunk `202[45]/\d{2}/\d{2}`; returns the consumed
characters and the rest. -/
def takeDate45 : List Char → Option (List Char × List Char)
  | '2' :: '0' :: '2' :: y :: '/' :: m1 :: m2 :: '/' :: d1 :: d2 :: rest =>
      if (y == '4' || y == '5') && m1.isDigit && m2.isDigit && d1.isDigit && d2.isDigit then
        some (['2', '0', '2', y, '/', m1, m2, '/', d1, d2], rest)
      else none
  | _ => none

/-- The lazy part `[^。]*?更新` of the date-info regex: find the earliest
`更新` not preceded by an intervening `。`; returns the consumed characters
(gap plus `更新`) and the rest. -/
def scanToUpdate : List Char → Option (List Char × List Char)
  | [] => none
  | c :: cs =>
      if c = '。' then none
      else if c = '更' then
        match cs with
        | '新' :: rest => some (['更', '新'], rest)
        | _ => (scanToUpdate cs).map (fun g => (c :: g.1, g.2))
      else (scanToUpdate cs).map (fun g => (c :: g.1, g.2))

/-- Match the regex `資料日期[：:\s]*202[45]/\d{2}/\d{2}[^。]*?更新[。]?` at
the start of `s`, returning `group(0)`. -/
def dateInfoMatchAt (s : List Char) : Option (List Char) :=
  if ("資料日期".data).isPrefixOf s then
    let r1 := s.drop ("資料日期".data).length
    let sep := r1.takeWhile dateSepClass
    let r2 := r1.dropWhile dateSepClass
    match takeDate45 r2 with
    | none => none
    | some (dt, r3) =>
        match scanToUpdate r3 with
        | none => none
        | some (gap, r4) =>
            let tail := if r4.headD ' ' = '。' then ['。'] else []
            some (("資料日期".data) ++ sep ++ dt ++ gap ++ tail)
  else none

/-- `re.search` for the date-info regex (poorstock.py line 550): leftmost
match of the pattern anywhere in the text. -/
def dateInfoSearch : List Char → Option (List Char)
  | [] => none
  | c :: cs =>
      match dateInfoMatchAt (c :: cs) with
      | some m => some m
      | none => dateInfoSearch cs

/-- Emit a run of `run` newlines, collapsing runs of 3 or more to exactly
two (one step of `re.sub(r'\n{3,}', '\n\n', ...)`). -/
def collapseEmit (run : Nat) : List Char :=
  if 3 ≤ run then ['\n', '\n'] else List.replicate run '\n'

/-- Scan for `re.sub(r'\n{3,}', '\n\n', ...)`: `run` is the length of the
pending newline run. -/
def collapseAux : Nat → List Char → List Char
  | run, [] => collapseEmit run
  | run, c :: cs =>
      if c = '\n' then collapseAux (run + 1) cs
      else collapseEmit run ++ (c :: collapseAux 0 cs)

/-- `re.sub(r'\n{3,}', '\n\n', content)` (poorstock.py line 577). -/
def collapseNewlines (s : String) : String := ⟨collapseAux 0 s.data⟩

/-- Python `"\n".join(parts)` (poorstock.py line 576). -/
def joinParts : List String → String
  | [] => ""
  | [x] => x
  | x :: y :: xs => x ++ "\n" ++ joinParts (y :: xs)

/-- All of `content_parts` (poorstock.py 539-573) except the final
scrape-timestamp line. -/
def contentPartsCore (page : HtmlPage) (data : ExtractData) (stock_id : Int)
    (stock_name url : String) : List String :=
  (match page.title with
   | some t => ["# " ++ stripStr t ++ "\n"]
   | none => [])
  ++ ["\n## 每日股價資訊\n"]
  ++ (match dateInfoSearch page.visibleText.data with
      | some m => ["**" ++ stripStr ⟨m⟩ ++ "**\n"]
      | none => [])
  ++ format_current_price_table data.current_prices
  ++ format_daily_price_table data.daily_prices
  ++ ["\n## AI股價走勢分析與操作建議\n"]
  ++ extract_ai_content page.visibleText
  ++ ["\n### 每週股權分散表分級資料\n"]
  ++ format_ownership_table data.ownership_data
  ++ ["\n---\n",
      "**股票代號:** " ++ toString stock_id,
      "**公司名稱:** " ++ stock_name,
      "**資料來源:** " ++ url]

/-- The document written by `scrape_poorstock_enhanced` (poorstock.py
539-581): joined parts, with the scrape-timestamp metadata line appended,
and runs of 3+ newlines collapsed. -/
def buildContent (page : HtmlPage) (data : ExtractData) (stock_id : Int)
    (stock_name url scrape_time : String) : String :=
  collapseNewlines
    (joinParts (contentPartsCore page data stock_id stock_name url
      ++ ["**抓取時間:** " ++ scrape_time]))

/-- The timestamp-independent prefix of the written document: everything
up to and including the `**抓取時間:** ` tag, newline runs collapsed.  Used
to state that two runs over the same page differ only in the trailing
scrape timestamp. -/
def docPrefix (page : HtmlPage) (data : ExtractData) (stock_id : Int)
    (stock_name url : String) : String :=
  ⟨collapseAux 0 ((joinParts (contentPartsCore page data stock_id stock_name url)).data
      ++ "\n**抓取時間:** ".data)⟩

/-- One row of `download_results.csv` as poorstock.py reads and writes it
(columns `filename, last_update_time, success, process_time`). -/
structure LedgerRow where
  filename : String
  last_update_time : String
  success : Bool
  process_time : String
deriving DecidableEq, Repr

/-- The ledger update of `scrape_poorstock_enhanced` (poorstock.py
590-611): update every row whose `filename` matches in place, otherwise
append a fresh row. -/
def upsertResult (results_df : List LedgerRow) (filename file_mod_time : String)
    (succ : Bool) (process_time : String) : List LedgerRow :=
  if results_df.any (fun r => r.filename == filename) then
    results_df.map (fun r =>
      if r.filename == filename then
        { r with last_update_time := file_mod_time, success := succ,
                 process_time := process_time }
      else r)
  else
    results_df ++ [⟨filename, file_mod_time, succ, process_time⟩]

/-- The bundle-success gate (poorstock.py 529-535 and 596):
`len(current_prices) >= 3 and len(daily_prices) > 0 and len(ownership_data) > 0`. -/
def bundleSuccess (data : ExtractData) : Bool :=
  decide (3 ≤ data.current_prices.length)
  && decide (0 < data.daily_prices.length)
  && decide (0 < data.ownership_data.length)

/-- Expected output filename `poorstock_{stock_id}_{stock_name}.md`
(poorstock.py line 510). -/
def expectedFilename (stock_id : Int) (stock_name : String) : String :=
  "poorstock_" ++ toString stock_id ++ "_" ++ stock_name ++ ".md"

/-- Result of one pipeline run over an already-fetched page. -/
structure ScrapeResult where
  document : String
  ledger : List LedgerRow
  success : Bool
deriving DecidableEq, Repr

/-- The post-fetch pipeline of `scrape_poorstock_enhanced` (poorstock.py
522-613) over a fetched page: extract, always build and write the document,
then upsert the ledger with the gate outcome.  The three wall-clock reads
(`datetime.now()` at lines 572 and 587 and the file mtime at 588) are the
inputs `scrape_time`, `process_time` and `file_mod_time`; `ledger0` is the
parsed `download_results.csv` (`none` when the file does not exist). -/
def scrape_core (page : HtmlPage) (ledger0 : Option (List LedgerRow))
    (stock_id : Int) (stock_name url scrape_time file_mod_time process_time : String) :
    ScrapeResult :=
  let data := extract_data_with_validation page.tables
  let filename := expectedFilename stock_id stock_name
  let content := buildContent page data stock_id stock_name url scrape_time
  let results_df := ledger0.getD []
  let success := bundleSuccess data
  let results := upsertResult results_df filename file_mod_time success process_time
  ⟨content, results, success⟩

/-- `fetch_page` helper: a strategy's outcome is usable when it returned a
page that passes content validation (`html and self.validate_html_content(html)`). -/
def fetchOk (r : Option HtmlPage) : Bool :=
  match r with
  | some h => validate_html_content h
  | none => false

/-- `EnhancedPoorStockScraper.fetch_page` (poorstock.py 163-192).  The two
strategies are modelled as oracles giving the page each would fetch
(`none` when the strategy errors out).  When `use_selenium` is set the
scripted browser is tried first, falling back to plain requests; otherwise
requests is tried first and, on failure, `use_selenium` is flipped on and
the scripted browser is tried. -/
def fetch_page (use_selenium : Bool)
    (selenium_result requests_result : Option HtmlPage) : Option HtmlPage :=
  if use_selenium then
    if fetchOk selenium_result then selenium_result
    else if fetchOk requests_result then requests_result
    else none
  else
    if fetchOk requests_result then requests_result
    else if fetchOk selenium_result then selenium_result
    else none

/-- An on-disk output file as `validate_stock_file` inspects it: its text
content and its age (`datetime.now() - st_mtime`) in whole seconds. -/
structure FileInfo where
  content : String
  ageSeconds : Nat
deriving DecidableEq, Repr

/-- The output directory: filename ↦ file, absent when the file does not
exist. -/
abbrev FileSys := List (String × FileInfo)

/-- Loading markers checked in saved files (GetAll.py line 145). -/
def file_loading_indicators : List String := ["載入中", "資訊載入中", "分散表載入中"]

/-- The result dict of `EnhancedBatchRunner.validate_stock_file`
(GetAll.py 119-174). -/
structure FileValidation where
  fileExists : Bool
  complete : Bool
  has_prices : Bool
  has_daily_data : Bool
  has_ownership : Bool
  has_loading_messages : Bool
  recommendation : String
deriving DecidableEq, Repr

/-- `EnhancedBatchRunner.validate_stock_file` (GetAll.py 119-174): checks
the saved markdown for loading markers and the three data signatures;
`complete` requires 2 of 3; incomplete or loading files get `retry`,
complete files older than 24 hours get `refresh`, fresh ones `skip`,
missing files `process`.  The age test `age_hours > 24` on float hours is
`ageSeconds > 86400`. -/
def validate_stock_file (fs : FileSys) (stock_id : Int) (stock_name : String) :
    FileValidation :=
  let filename := expectedFilename stock_id stock_name
  match (fs : List (String × FileInfo)).find? (fun p => p.1 == filename) with
  | none =>
      ⟨false, false, false, false, false, false, "process"⟩
  | some (_, fi) =>
      let content := fi.content
      let has_loading_messages :=
        file_loading_indicators.any (fun indicator => hasSubstr indicator content)
      let has_prices := hasSubstr "開盤" content && hasSubstr "收盤" content
        && hasSubstr "| 200" content
      let has_daily_data := hasSubstr "| 2025/" content && hasSubstr "成交量" content
      let has_ownership := hasSubstr "持股比例" content && hasSubstr "%" content
      let complete : Bool := decide (2 ≤
        (if has_prices then 1 else 0) + (if has_daily_data then 1 else 0)
        + (if has_ownership then 1 else 0))
      let recommendation :=
        if has_loading_messages || !complete then "retry"
        else if 86400 < fi.ageSeconds then "refresh"
        else "skip"
      ⟨true, complete, has_prices, has_daily_data, has_ownership,
        has_loading_messages, recommendation⟩

/-- One cell of a pandas frame read from `download_results.csv`:
booleans, strings, integers, or NaN. -/
inductive Cell where
  | b (val : Bool)
  | s (val : String)
  | i (val : Int)
  | nan
deriving DecidableEq, Repr

/-- A pandas DataFrame: column names plus rows of cells (row cells aligned
with `cols`). -/
structure DataFrame where
  cols : List String
  rows : List (List Cell)
deriving DecidableEq, Repr

/-- Column lookup `df[c]`: pandas raises `KeyError` when the column is
missing. -/
def getColIdx (df : DataFrame) (c : String) : Except String Nat :=
  match df.cols.findIdx? (fun x => x == c) with
  | some i => Except.ok i
  | none => Except.error ("KeyError: " ++ c)

/-- pandas elementwise `cell == False` (`0 == False` holds in Python). -/
def cellIsFalse : Cell → Bool
  | .b v => !v
  | .i v => v == 0
  | _ => false

/-- pandas elementwise `cell == "t"`. -/
def cellEqStr : Cell → String → Bool
  | .s v, t => v == t
  | _, _ => false

/-- `str()` view of a cell (the `filename` column always holds strings). -/
def cellAsStr : Cell → String
  | .s v => v
  | .b v => if v then "True" else "False"
  | .i v => toString v
  | .nan => "nan"

/-- The failed-row scan shared by `determine_processing_strategy`
(GetAll.py 331-334) and `retry_failed_stocks` (416-418):
`(results_df['success'] == False) | (results_df['last_update_time'] ==
'FAILED')`, then the masked `filename` column.  Accessing a missing column
raises `KeyError`. -/
def ledgerFailedFiles (df : DataFrame) : Except String (List String) := do
  let si ← getColIdx df "success"
  let li ← getColIdx df "last_update_time"
  let fi ← getColIdx df "filename"
  Except.ok (((df.rows.filter (fun r =>
      cellIsFalse (r.getD si Cell.nan) || cellEqStr (r.getD li Cell.nan) "FAILED")).map
    (fun r => cellAsStr (r.getD fi Cell.nan))))

/-- Numeric value of a digit string. -/
def digitsVal (l : List Char) : Nat :=
  l.foldl (fun n c => n * 10 + (c.toNat - 48)) 0

/-- Python `int(s)` restricted to optionally-signed decimal literals
(the only shape of the id segment of ledger filenames); anything else
raises `ValueError`, modelled as `none`. -/
def parseIntChars : List Char → Option Int
  | [] => none
  | '-' :: ds =>
      if !ds.isEmpty && ds.all Char.isDigit then some (-(digitsVal ds : Int)) else none
  | ds => if ds.all Char.isDigit then some (digitsVal ds : Int) else none

/-- `int(filename.split('_')[1])` (GetAll.py 338 and 423): `none` when the
split has no second piece (`IndexError`) or it is not an integer
(`ValueError`); both are caught and skipped by the source. -/
def parseStockId (filename : String) : Option Int :=
  ((splitOnChar '_' filename.data).get? 1).bind parseIntChars

/-- One row of the stock reference list `StockID_TWSE_TPEX.csv`
(columns `代號`, `名稱`). -/
structure StockRow where
  code : Int
  name : String
deriving DecidableEq, Repr

/-- Recommendation of `validate_stock_file` for one listed stock. -/
def recommendationFor (fs : FileSys) (s : StockRow) : String :=
  (validate_stock_file fs s.code s.name).recommendation

/-- The bucket of stock ids whose file validation gave recommendation
`rec`, in list order (the classification loop of GetAll.py 317-328). -/
def bucketIds (stocks : List StockRow) (fs : FileSys) (rec : String) : List Int :=
  (stocks.filter (fun s => recommendationFor fs s == rec)).map (fun s => s.code)

/-- The failed-stock accumulation loop of `determine_processing_strategy`
(GetAll.py 336-342): parse each failed filename's id and append it unless
it is already in the priority bucket or already collected. -/
def dedupFailedIds (priority_stocks : List Int) (failed_files : List String) : List Int :=
  failed_files.foldl (fun acc fn =>
    match parseStockId fn with
    | some sid =>
        if priority_stocks.contains sid || acc.contains sid then acc else acc ++ [sid]
    | none => acc) []

/-- `EnhancedBatchRunner.determine_processing_strategy` (GetAll.py
308-351).  `results` is the parsed `download_results.csv` (`none` when the
file does not exist); a malformed ledger schema surfaces as the pandas
`KeyError`. -/
def determine_processing_strategy (stocks : List StockRow) (fs : FileSys)
    (results : Option DataFrame) : Except String (String × List Int) :=
  let unprocessed_stocks := bucketIds stocks fs "process"
  let priority_stocks := bucketIds stocks fs "retry"
  let refresh_stocks := bucketIds stocks fs "refresh"
  let failedE : Except String (List Int) :=
    match results with
    | none => Except.ok []
    | some df =>
        match ledgerFailedFiles df with
        | Except.error e => Except.error e
        | Except.ok files => Except.ok (dedupFailedIds priority_stocks files)
  match failedE with
  | Except.error e => Except.error e
  | Except.ok failed_stocks =>
      if !priority_stocks.isEmpty || !unprocessed_stocks.isEmpty
          || !failed_stocks.isEmpty then
        Except.ok ("PRIORITY", priority_stocks ++ unprocessed_stocks ++ failed_stocks)
      else if !refresh_stocks.isEmpty then
        Except.ok ("REFRESH", refresh_stocks.take 20)
      else
        Except.ok ("UP_TO_DATE", [])

/-- The failed-id scan of `retry_failed_stocks` (GetAll.py 410-427):
`none` results file means nothing to retry; otherwise the same failed-row
scan, each id parsed, unparseable filenames skipped (no deduplication). -/
def retry_failed_ids (results : Option DataFrame) : Except String (List Int) :=
  match results with
  | none => Except.ok []
  | some df =>
      match ledgerFailedFiles df with
      | Except.error e => Except.error e
      | Except.ok files => Except.ok (files.filterMap parseStockId)

/-- One row of `download_results.csv` with the `retry_count` column as
`record_failed_stock` writes it (GetAll.py 281, 294-300). -/
structure LedgerRow5 where
  filename : String
  last_update_time : String
  success : Bool
  process_time : String
  retry_count : Int
deriving DecidableEq, Repr

/-- The upsert of `EnhancedBatchRunner.record_failed_stock` (GetAll.py
287-301) over a well-schema ledger: rows matching the filename are
overwritten in place with the failure fields, otherwise a fresh failure
row is appended. -/
def record_failed_upsert (results_df : List LedgerRow5) (filename process_time : String)
    (retry_count : Int) : List LedgerRow5 :=
  if results_df.any (fun r => r.filename == filename) then
    results_df.map (fun r =>
      if r.filename == filename then
        { r with success := false, process_time := process_time,
                 last_update_time := "FAILED", retry_count := retry_count }
      else r)
  else
    results_df ++ [⟨filename, "FAILED", false, process_time, retry_count⟩]

/-- The full ledger schema created by `record_failed_stock` when no results
file exists (GetAll.py line 281). -/
def ledgerCols5 : List String :=
  ["filename", "last_update_time", "success", "process_time", "retry_count"]

/-- pandas `df[c] = d` when `c` is absent: append the column with `d` in
every row. -/
def ensureCol (df : DataFrame) (c : String) (d : Cell) : DataFrame :=
  if df.cols.contains c then df
  else ⟨df.cols ++ [c], df.rows.map (fun r => r ++ [d])⟩

/-- pandas `df.loc[mask, c] = v`: set `c` on the masked rows, creating the
column (as NaN elsewhere) when absent. -/
def locSetCol (df : DataFrame) (mask : List Bool) (c : String) (v : Cell) : DataFrame :=
  let df := ensureCol df c Cell.nan
  match df.cols.findIdx? (fun x => x == c) with
  | none => df
  | some ci =>
      ⟨df.cols, List.zipWith (fun r m => if m then r.set ci v else r) df.rows mask⟩

/-- pandas `pd.concat([df, one_row_frame])`: align columns by name, pad
with NaN. -/
def concatRow (df : DataFrame) (kvs : List (String × Cell)) : DataFrame :=
  let newCols := (kvs.map (fun p => p.1)).filter (fun c => !df.cols.contains c)
  let cols := df.cols ++ newCols
  let paddedOld := df.rows.map (fun r => r ++ newCols.map (fun _ => Cell.nan))
  let newRow := cols.map (fun c =>
    (((kvs.find? (fun p => p.1 == c)).map (fun p => p.2)).getD Cell.nan))
  ⟨cols, paddedOld ++ [newRow]⟩

/-- `EnhancedBatchRunner.record_failed_stock` at the frame level (GetAll.py
278-303): a missing results file is replaced by a fresh frame with the
full five-column schema, a missing `retry_count` column is added with
zeros, then the failure row is upserted by filename. -/
def record_failed_df (results : Option DataFrame) (filename process_time : String)
    (retry_count : Int) : Except String DataFrame :=
  let df0 := results.getD ⟨ledgerCols5, []⟩
  let df1 := if df0.cols.contains "retry_count" then df0
             else ensureCol df0 "retry_count" (Cell.i 0)
  match getColIdx df1 "filename" with
  | Except.error e => Except.error e
  | Except.ok fi =>
      let mask := df1.rows.map (fun r => cellEqStr (r.getD fi Cell.nan) filename)
      if mask.any id then
        let df2 := locSetCol df1 mask "success" (Cell.b false)
        let df3 := locSetCol df2 mask "process_time" (Cell.s process_time)
        let df4 := locSetCol df3 mask "last_update_time" (Cell.s "FAILED")
        Except.ok (locSetCol df4 mask "retry_count" (Cell.i retry_count))
      else
        Except.ok (concatRow df1
          [("filename", Cell.s filename), ("last_update_time", Cell.s "FAILED"),
           ("success", Cell.b false), ("process_time", Cell.s process_time),
           ("retry_count", Cell.i retry_count)])

end Poorstock

namespace Poorstock

/-- C2 counterexample page: visible text contains exactly 3 occurrences of
the marker `loading` (and no other marker), long enough and with 2 tables. -/
def c2Page : HtmlPage :=
  { rawLength := 1500
    visibleText := "loadingloadingloading"
    title := none
    tables := [⟨[], ""⟩, ⟨[], ""⟩] }

/-- C1: a dedicated current-price table whose three key cells each contain a
price token without being the canonical slot names. -/
def c1CurrentTableExotic : HtmlTable :=
  ⟨[["今日開盤", "1"], ["週間最高", "2"], ["近期最低", "3"]], "c"⟩

/-- C1: a daily-price table (22 rows) whose first data row is a stray
2-cell row, followed by 20 valid 2025 rows. -/
def c1DailyTable : HtmlTable :=
  ⟨[["日期", "開盤", "最高", "最低", "收盤", "成交量"], ["--", "--"]]
     ++ List.replicate 20 ["2025/01/06", "1", "2", "3", "4", "5"], "d"⟩

/-- C1: an ownership table with 5 valid data rows. -/
def c1OwnTable : HtmlTable :=
  ⟨[["日期", "100張以下持股比例", "m", "l", "總股東人數"]]
     ++ List.replicate 5 ["2025/01/03", "10%", "20%", "70%", "1000"], "o"⟩

/-- C1 counterexample page: the current-price dict gets 3 entries, none of
which is one of the four canonical slots; the stray first daily row blocks
the daily-table fallback; daily and ownership extraction both succeed. -/
def c1PageA : HtmlPage :=
  ⟨1500, "x", none, [c1CurrentTableExotic, c1DailyTable, c1OwnTable]⟩

/-- C1: a canonical current-price table with all four slots. -/
def c1CurrentTable4 : HtmlTable :=
  ⟨[["開盤", "10"], ["最高", "12"], ["最低", "9"], ["收盤", "11"]], "c"⟩

/-- C1: the claim's 4/0/5 instance — four current-price fields, no daily
table, five ownership records. -/
def c1PageB : HtmlPage :=
  ⟨1500, "x", none,
    [c1CurrentTable4,
     ⟨[["日期", "100張以下持股比例", "m", "l", "總股東人數"]]
        ++ List.replicate 5 ["2025/01/03", "10%", "20%", "70%", "1000"], "o"⟩]⟩

/-- C3: a page on which the whole extraction succeeds (4 current-price
fields, 20 daily records, 5 ownership records). -/
def c3Page : HtmlPage :=
  ⟨1500, "x", some "t",
    [⟨[["開盤", "10"], ["最高", "12"], ["最低", "9"], ["收盤", "11"]], "c"⟩,
     ⟨[["日期", "開盤", "最高", "最低", "收盤", "成交量"]]
        ++ List.replicate 20 ["2025/01/06", "1", "2", "3", "4", "5"], "d"⟩,
     ⟨[["日期", "100張以下持股比例", "m", "l", "總股東人數"]]
        ++ List.replicate 5 ["2025/01/03", "10%", "20%", "70%", "1000"], "o"⟩]⟩

/-- C5: content of a complete saved file (prices and ownership signatures
present, no loading markers). -/
def c5FileContent : String := "開盤 收盤 | 2001 持股比例 5%"

/-- C5 counterexample state: one stock whose saved file is complete but
older than 24 hours (recommendation `refresh`) while the ledger records it
as failed. -/
def c5Fs : FileSys := [("poorstock_7_甲.md", ⟨c5FileContent, 90000⟩)]

/-- C5 counterexample universe: the single stock 7. -/
def c5Stocks : List StockRow := [⟨7, "甲"⟩]

/-- C5 counterexample ledger: stock 7 recorded as failed. -/
def c5Ledger : DataFrame :=
  ⟨["filename", "last_update_time", "success", "process_time"],
   [[Cell.s "poorstock_7_甲.md", Cell.s "FAILED", Cell.b false, Cell.s "t"]]⟩

/-- C5 witness universe: stocks 1 and 2 unprocessed, stocks 3, 4, 5 with
complete-but-aged files. -/
def c5wStocks : List StockRow := [⟨1, "A"⟩, ⟨2, "B"⟩, ⟨3, "C"⟩, ⟨4, "D"⟩, ⟨5, "E"⟩]

/-- C5 witness filesystem: refresh-eligible files for stocks 3, 4, 5 only. -/
def c5wFs : FileSys :=
  [("poorstock_3_C.md", ⟨c5FileContent, 90000⟩),
   ("poorstock_4_D.md", ⟨c5FileContent, 90000⟩),
   ("poorstock_5_E.md", ⟨c5FileContent, 90000⟩)]

/-- C7 counterexample ledger: the `success` column is missing. -/
def c7BadLedger : DataFrame :=
  ⟨["filename", "last_update_time", "process_time"],
   [[Cell.s "poorstock_7_甲.md", Cell.s "FAILED", Cell.s "t"]]⟩

/-- C7: a header-only ledger with the full five-column schema. -/
def c7EmptyLedger : DataFrame := ⟨ledgerCols5, []⟩

/-- C8: the newer of two price bars. -/
def c8barNew : PriceBar := ⟨"2025/01/02", "1", "2", "3", "4", "5"⟩

/-- C8: the older of two price bars. -/
def c8barOld : PriceBar := ⟨"2025/01/01", "1", "2", "3", "4", "5"⟩

/-- C9 witness: a daily-price table (22 rows, 2025 dates). -/
def c9DailyTable : HtmlTable :=
  ⟨[["日期", "開盤", "最高", "最低", "收盤", "成交量"]]
     ++ List.replicate 21 ["2025/02/01", "1", "2", "3", "4", "5"], "d"⟩

/-- C9 witness: an ownership table (6 rows). -/
def c9OwnTable : HtmlTable :=
  ⟨[["日期", "100張以下持股比例", "m", "l", "總股東人數"]]
     ++ List.replicate 5 ["2025/02/03", "10%", "20%", "70%", "1000"], "o"⟩

/-- C10: a daily table whose only data row is a well-formed 2026 date. -/
def c10Table26 : HtmlTable :=
  ⟨[["日期", "開盤", "最高", "最低", "收盤", "成交量"],
    ["2026/01/02", "1", "2", "3", "4", "5"]], "d"⟩

/-- C10: an ownership table whose only data row is a well-formed 2022 date. -/
def c10TableOwn22 : HtmlTable :=
  ⟨[["日期", "100張以下持股比例", "m", "l", "總股東人數"],
    ["2022/01/02", "10%", "20%", "70%", "1000"]], "o"⟩

/-- Lexicographic comparison of char lists (code-point order).  On the
zero-padded `yyyy/mm/dd` dates of this site it coincides with chronological
order; used only to state C8. -/
def dateLeb : List Char → List Char → Bool
  | [], _ => true
  | _ :: _, [] => false
  | a :: as, b :: bs =>
      if a.toNat < b.toNat then true
      else if b.toNat < a.toNat then false
      else dateLeb as bs

/-- Chronological order on date strings (spec-side, for stating C8). -/
abbrev dateLe (a b : String) : Prop := dateLeb a.data b.data = true

end Poorstock

open Poorstock

/-- C2: the claim says a page containing exactly 3 occurrences of a loading
marker is marked incomplete.  On `c2Page` the marker `loading` occurs exactly
3 times, the page passes the length (1500 ≥ 1000) and table-count (2) checks,
yet `validate_html_content` accepts it: the validator counts distinct markers
present, not occurrences, so the claim is false. -/
theorem c2_counterexample :
    countOccs "loading" c2Page.visibleText = 3 ∧
    1000 ≤ c2Page.rawLength ∧
    2 ≤ c2Page.tables.length ∧
    validate_html_content c2Page = true := by
  refine ⟨by decide, by decide, by decide, by decide⟩

/-- C2 (amended): for a page passing the length and table-count checks, the
validator marks the page incomplete exactly when more than 2 of the known
loading markers are present (each counted once, however often it occurs). -/
theorem c2_validator_distinct_markers (p : HtmlPage)
    (hlen : 1000 ≤ p.rawLength) (htab : 2 ≤ p.tables.length) :
    validate_html_content p = true ↔ loadingIndicatorsPresent p ≤ 2 := by
  unfold validate_html_content loadingIndicatorsPresent
  have h1 : ¬ p.rawLength < 1000 := by omega
  simp only [h1, if_false]
  by_cases h2 : 2 < (loading_indicators.filter
      (fun ind => hasSubstr ind (toLowerStr p.visibleText))).length
  · simp only [if_pos h2, Bool.false_eq_true, false_iff]
    omega
  · simp only [if_neg h2]
    simp [htab]
    omega

/-- C2 witness: a concrete page with exactly 2 distinct markers present is
accepted by the validator. -/
theorem c2_witness :
    1000 ≤ (⟨2000, "loading 請稍候", none, [⟨[], ""⟩, ⟨[], ""⟩]⟩ : HtmlPage).rawLength ∧
    2 ≤ (⟨2000, "loading 請稍候", none, [⟨[], ""⟩, ⟨[], ""⟩]⟩ : HtmlPage).tables.length ∧
    (validate_html_content ⟨2000, "loading 請稍候", none, [⟨[], ""⟩, ⟨[], ""⟩]⟩ = true ↔
      loadingIndicatorsPresent ⟨2000, "loading 請稍候", none, [⟨[], ""⟩, ⟨[], ""⟩]⟩ ≤ 2) :=
  ⟨by decide, by decide,
    c2_validator_distinct_markers ⟨2000, "loading 請稍候", none, [⟨[], ""⟩, ⟨[], ""⟩]⟩
      (by decide) (by decide)⟩

/-- C6: the overall fetch returns a page exactly when at least one
strategy's result passes content validation — whichever strategy is
selected first, the other is attempted before the fetch gives up, so a
fetch never fails merely because one strategy's output failed validation. -/
theorem c6_fetch_fallback (use_selenium : Bool)
    (selenium_result requests_result : Option HtmlPage) :
    ((fetch_page use_selenium selenium_result requests_result).isSome
       = (fetchOk selenium_result || fetchOk requests_result)) ∧
    (fetch_page use_selenium selenium_result requests_result = none ↔
       fetchOk selenium_result = false ∧ fetchOk requests_result = false) := by
  have hs : fetchOk selenium_result = true → selenium_result.isSome = true := by
    cases selenium_result <;> simp [fetchOk]
  have hr : fetchOk requests_result = true → requests_result.isSome = true := by
    cases requests_result <;> simp [fetchOk]
  cases use_selenium <;>
    by_cases h1 : fetchOk selenium_result = true <;>
    by_cases h2 : fetchOk requests_result = true <;>
    simp_all [fetch_page] <;>
    cases selenium_result <;> cases requests_result <;> simp_all [fetchOk]

/-- C9: the role the classifier assigns to a table is a function of that
table's content alone: classifying a page decomposes pointwise over its
table list, so the same table gets the same role at any position; in
particular swapping two tables swaps the two roles, and a daily-prices
table plus an ownership table are selected identically in either document
order. -/
theorem c9_classifier_position_independent :
    (∀ (pre post : List HtmlTable) (t : HtmlTable),
        pageRoles (pre ++ t :: post)
          = pageRoles pre ++ identify_table_by_content t :: pageRoles post) ∧
    (∀ a b : HtmlTable,
        pageRoles [a, b] = [identify_table_by_content a, identify_table_by_content b] ∧
        pageRoles [b, a] = [identify_table_by_content b, identify_table_by_content a]) ∧
    (∀ a b : HtmlTable, identify_table_by_content a = "daily_prices" →
        identify_table_by_content b = "ownership" →
        selectTables [a, b] = (some a, some b, none) ∧
        selectTables [b, a] = (some a, some b, none)) := by
  refine ⟨?_, ?_, ?_⟩
  · intro pre post t
    simp [pageRoles]
  · intro a b
    exact ⟨by simp [pageRoles], by simp [pageRoles]⟩
  · intro a b ha hb
    constructor <;> simp [selectTables, ha, hb]

/-- C9 witness: concrete daily-prices and ownership tables keep their roles
and selection in both document orders. -/
theorem c9_witness :
    identify_table_by_content c9DailyTable = "daily_prices" ∧
    identify_table_by_content c9OwnTable = "ownership" ∧
    (selectTables [c9DailyTable, c9OwnTable] = (some c9DailyTable, some c9OwnTable, none) ∧
     selectTables [c9OwnTable, c9DailyTable] = (some c9DailyTable, some c9OwnTable, none)) :=
  ⟨by decide, by decide,
    c9_classifier_position_independent.2.2 c9DailyTable c9OwnTable (by decide) (by decide)⟩

/-- C10: record extraction accepts only rows in the hard-coded year ranges:
an accepted daily (ownership) leading cell necessarily starts `2024/` or
`2025/` (`2023/`–`2025/`), any table whose data rows all fail the year gate
extracts zero records, the current-price fallback is a no-op whenever the
daily table's first data row fails the gate, and a well-formed 2026 daily
row (2022 ownership row) is silently dropped. -/
theorem c10_year_gate :
    (∀ s : String, matchDate45 s = true →
        List.isPrefixOf "2024/".data s.data = true ∨
        List.isPrefixOf "2025/".data s.data = true) ∧
    (∀ s : String, matchDate345 s = true →
        List.isPrefixOf "2023/".data s.data = true ∨
        List.isPrefixOf "2024/".data s.data = true ∨
        List.isPrefixOf "2025/".data s.data = true) ∧
    (∀ t : HtmlTable, (∀ cells ∈ t.rows.drop 1, matchDate45 (cells.headD "") = false) →
        extract_daily_prices (some t) = []) ∧
    (∀ t : HtmlTable, (∀ cells ∈ t.rows.drop 1, matchDate345 (cells.headD "") = false) →
        extract_ownership_data (some t) = []) ∧
    (∀ (ct : Option HtmlTable) (dt : HtmlTable),
        matchDate45 ((dt.rows.getD 1 []).headD "") = false →
        extract_current_prices ct (some dt) = extract_current_prices ct none) ∧
    (isDateShape "2026/01/02" = true ∧ matchDate45 "2026/01/02" = false ∧
     extract_daily_prices (some c10Table26) = [] ∧
     isDateShape "2022/01/02" = true ∧ matchDate345 "2022/01/02" = false ∧
     extract_ownership_data (some c10TableOwn22) = []) := by
  refine ⟨?_, ?_, ?_, ?_, ?_, by decide, by decide, by decide, by decide, by decide, by decide⟩
  · intro s h
    unfold matchDate45 at h
    split at h
    next y m1 m2 d1 d2 rest heq =>
      simp only [Bool.and_eq_true, Bool.or_eq_true, beq_iff_eq] at h
      obtain ⟨⟨⟨⟨hy, _⟩, _⟩, _⟩, _⟩ := h
      rw [heq]
      rcases hy with hy | hy
      · subst hy; left; simp [List.isPrefixOf]
      · subst hy; right; simp [List.isPrefixOf]
    next => exact absurd h (by simp)
  · intro s h
    unfold matchDate345 at h
    split at h
    next y m1 m2 d1 d2 rest heq =>
      simp only [Bool.and_eq_true, Bool.or_eq_true, beq_iff_eq] at h
      obtain ⟨⟨⟨⟨hy, _⟩, _⟩, _⟩, _⟩ := h
      rw [heq]
      rcases hy with (hy | hy) | hy
      · subst hy; left; simp [List.isPrefixOf]
      · subst hy; right; left; simp [List.isPrefixOf]
      · subst hy; right; right; simp [List.isPrefixOf]
    next => exact absurd h (by simp)
  · intro t hall
    unfold extract_daily_prices
    rw [List.filterMap_eq_nil_iff]
    intro cells hc
    rw [hall cells hc]
    simp
  · intro t hall
    unfold extract_ownership_data
    rw [List.filterMap_eq_nil_iff]
    intro cells hc
    rw [hall cells hc]
    simp
  · intro ct dt h
    simp only [extract_current_prices, h, Bool.and_false, Bool.false_eq_true, if_false,
      ite_self]

/-- C10 witness: the 2026 daily table satisfies the all-rows-fail-gate
hypothesis and extracts zero records. -/
theorem c10_witness :
    (∀ cells ∈ c10Table26.rows.drop 1, matchDate45 (cells.headD "") = false) ∧
    extract_daily_prices (some c10Table26) = [] :=
  ⟨by decide, c10_year_gate.2.2.1 c10Table26 (by decide)⟩

/-- C8: the claim says the written daily table is ordered newest first for
every extracted sequence.  For the two-bar sequence `[newer, older]` (the
order a newest-first site table extracts in), the written rows list the
older bar before the newer one, refuting the unconditional claim. -/
theorem c8_counterexample :
    format_daily_price_table [c8barNew, c8barOld] =
      ["| 日期 | 開盤價 | 最高價 | 最低價 | 收盤價 | 成交量 |",
       "|------|--------|--------|--------|--------|--------|",
       fmtDailyRow c8barOld, fmtDailyRow c8barNew, ""] ∧
    (c8barOld.date ≠ c8barNew.date ∧ dateLe c8barOld.date c8barNew.date) := by
  exact ⟨by decide, by decide, by decide⟩

/-- C8 (amended): when the extracted sequence is chronologically
non-decreasing (the order the spec's data model calls "chronological as
emitted by the source"), the written daily table is the placeholder for an
empty sequence, and otherwise consists of the header rows followed by the
last at-most-30 records in reverse: exactly `min 30 l.length` rows, dates
non-increasing (newest first), and every omitted record dated no later
than every shown one. -/
theorem c8_daily_table_recent (l : List PriceBar)
    (hsort : l.Pairwise (fun a b => dateLe a.date b.date)) :
    (l = [] → format_daily_price_table l = ["*每日股價資訊載入中...*\n"]) ∧
    (l ≠ [] → format_daily_price_table l =
        ["| 日期 | 開盤價 | 最高價 | 最低價 | 收盤價 | 成交量 |",
         "|------|--------|--------|--------|--------|--------|"]
        ++ ((lastN 30 l).reverse.map fmtDailyRow) ++ [""]) ∧
    (lastN 30 l).length = min 30 l.length ∧
    ((lastN 30 l).reverse).Pairwise (fun a b => dateLe b.date a.date) ∧
    (∀ a ∈ l, a ∈ lastN 30 l ∨ ∀ b ∈ lastN 30 l, dateLe a.date b.date) := by
  refine ⟨?_, ?_, ?_, ?_, ?_⟩
  · intro h; subst h; rfl
  · intro h
    simp only [format_daily_price_table]
    rw [if_neg (by simpa using h)]
  · simp only [lastN, List.length_drop]
    omega
  · rw [List.pairwise_reverse]
    exact List.Pairwise.sublist (List.drop_sublist _ _) hsort
  · intro a ha
    by_cases hmem : a ∈ lastN 30 l
    · exact Or.inl hmem
    · right
      intro b hb
      have hsplit := List.take_append_drop (l.length - 30) l
      rw [← hsplit] at hsort ha
      rcases List.mem_append.mp ha with h1 | h1
      · exact (List.pairwise_append.mp hsort).2.2 a h1 b hb
      · exact absurd h1 hmem

/-- C8 witness: a two-bar chronological sequence satisfies the sortedness
hypothesis, and its shown rows dominate the omitted ones. -/
theorem c8_witness :
    ([c8barOld, c8barNew].Pairwise (fun a b => dateLe a.date b.date)) ∧
    (∀ a ∈ [c8barOld, c8barNew], a ∈ lastN 30 [c8barOld, c8barNew] ∨
      ∀ b ∈ lastN 30 [c8barOld, c8barNew], dateLe a.date b.date) :=
  ⟨by decide, (c8_daily_table_recent [c8barOld, c8barNew] (by decide)).2.2.2.2⟩

/-- Helper: an upsert whose key is absent appends (poorstock variant). -/
theorem upsertResult_absent (df : List LedgerRow) (fn mt : String) (s : Bool) (pt : String)
    (h : df.countP (fun r => r.filename == fn) = 0) :
    upsertResult df fn mt s pt = df ++ [⟨fn, mt, s, pt⟩] := by
  unfold upsertResult
  rw [if_neg]
  simp only [List.any_eq_true, not_exists, not_and]
  intro r hr
  exact fun hb => (List.countP_eq_zero.mp h r hr) hb

/-- C4: the ledger upsert of both writers appends on a missing key,
overwrites in place on a present key, never removes rows, leaves exactly
one up-to-date row after two upserts of a fresh filename, and preserves
the one-row-per-filename invariant. -/
theorem c4_ledger_upsert :
    (∀ (df : List LedgerRow) (fn mt : String) (s : Bool) (pt : String),
        df.countP (fun r => r.filename == fn) = 0 →
        upsertResult df fn mt s pt = df ++ [⟨fn, mt, s, pt⟩]) ∧
    (∀ (df : List LedgerRow) (fn mt : String) (s : Bool) (pt : String),
        df.any (fun r => r.filename == fn) = true →
        upsertResult df fn mt s pt
          = df.map (fun r => if r.filename == fn then ⟨fn, mt, s, pt⟩ else r)) ∧
    (∀ (df : List LedgerRow) (fn mt1 : String) (s1 : Bool) (pt1 mt2 : String)
        (s2 : Bool) (pt2 : String),
        df.countP (fun r => r.filename == fn) = 0 →
        upsertResult (upsertResult df fn mt1 s1 pt1) fn mt2 s2 pt2
            = df ++ [⟨fn, mt2, s2, pt2⟩] ∧
        (upsertResult (upsertResult df fn mt1 s1 pt1) fn mt2 s2 pt2).countP
            (fun r => r.filename == fn) = 1) ∧
    (∀ (df : List LedgerRow) (fn mt : String) (s : Bool) (pt : String),
        df.length ≤ (upsertResult df fn mt s pt).length ∧
        ∀ g, df.any (fun r => r.filename == g) = true →
          (upsertResult df fn mt s pt).any (fun r => r.filename == g) = true) ∧
    (∀ (df : List LedgerRow) (fn mt : String) (s : Bool) (pt : String),
        (∀ g, df.countP (fun r => r.filename == g) ≤ 1) →
        ∀ g, (upsertResult df fn mt s pt).countP (fun r => r.filename == g) ≤ 1) ∧
    (∀ (df : List LedgerRow5) (fn pt : String) (rc : Int),
        df.countP (fun r => r.filename == fn) = 0 →
        record_failed_upsert df fn pt rc = df ++ [⟨fn, "FAILED", false, pt, rc⟩]) ∧
    (∀ (df : List LedgerRow5) (fn pt : String) (rc : Int),
        df.length ≤ (record_failed_upsert df fn pt rc).length) ∧
    (∀ (df : List LedgerRow5) (fn pt : String) (rc : Int),
        (∀ g, df.countP (fun r => r.filename == g) ≤ 1) →
        ∀ g, (record_failed_upsert df fn pt rc).countP (fun r => r.filename == g) ≤ 1) := by
  have hmapPoor : ∀ (df : List LedgerRow) (fn mt : String) (s : Bool) (pt : String),
      df.any (fun r => r.filename == fn) = true →
      upsertResult df fn mt s pt
        = df.map (fun r => if r.filename == fn then ⟨fn, mt, s, pt⟩ else r) := by
    intro df fn mt s pt h
    unfold upsertResult
    rw [if_pos h]
    apply List.map_congr_left
    intro r _
    by_cases hb : r.filename == fn
    · rw [if_pos hb, if_pos hb]
      have : r.filename = fn := eq_of_beq hb
      simp [this]
    · rw [if_neg hb, if_neg hb]
  have hcountMapPoor : ∀ (df : List LedgerRow) (fn mt : String) (s : Bool) (pt : String) (g : String),
      (df.map (fun r => if r.filename == fn then
          { r with last_update_time := mt, success := s, process_time := pt } else r)).countP
          (fun r => r.filename == g)
        = df.countP (fun r => r.filename == g) := by
    intro df fn mt s pt g
    rw [List.countP_map]
    apply List.countP_congr
    intro r _
    by_cases hb : (r.filename == fn) = true <;> simp [Function.comp, hb]
  refine ⟨upsertResult_absent, hmapPoor, ?_, ?_, ?_, ?_, ?_, ?_⟩
  · intro df fn mt1 s1 pt1 mt2 s2 pt2 h
    have h1 : upsertResult df fn mt1 s1 pt1 = df ++ [⟨fn, mt1, s1, pt1⟩] :=
      upsertResult_absent df fn mt1 s1 pt1 h
    have hany : (df ++ [(⟨fn, mt1, s1, pt1⟩ : LedgerRow)]).any
        (fun r => r.filename == fn) = true := by
      simp
    have h2 := hmapPoor (df ++ [⟨fn, mt1, s1, pt1⟩]) fn mt2 s2 pt2 hany
    rw [h1, h2]
    have hmapid : (df ++ [(⟨fn, mt1, s1, pt1⟩ : LedgerRow)]).map
        (fun r => if r.filename == fn then (⟨fn, mt2, s2, pt2⟩ : LedgerRow) else r)
        = df ++ [⟨fn, mt2, s2, pt2⟩] := by
      rw [List.map_append]
      congr 1
      · have hpt : ∀ r ∈ df,
            (if (r.filename == fn) = true then (⟨fn, mt2, s2, pt2⟩ : LedgerRow) else r)
              = id r := by
          intro r hr
          rw [if_neg]
          · rfl
          · exact (List.countP_eq_zero.mp h r hr)
        rw [List.map_congr_left hpt, List.map_id]
      · simp
    rw [hmapid]
    constructor
    · rfl
    · rw [List.countP_append, List.countP_eq_zero.mpr (List.countP_eq_zero.mp h)]
      simp
  · intro df fn mt s pt
    constructor
    · unfold upsertResult
      split
      · rw [List.length_map]
      · rw [List.length_append]; omega
    · intro g hg
      unfold upsertResult
      split
      · obtain ⟨r, hr, hb⟩ := List.any_eq_true.mp hg
        apply List.any_eq_true.mpr
        refine ⟨_, List.mem_map.mpr ⟨r, hr, rfl⟩, ?_⟩
        by_cases hfn : (r.filename == fn) = true
        · simpa [hfn] using hb
        · simpa [hfn] using hb
      · exact List.any_eq_true.mpr (by
          obtain ⟨r, hr, hb⟩ := List.any_eq_true.mp hg
          exact ⟨r, List.mem_append_left _ hr, hb⟩)
  · intro df fn mt s pt hinv g
    unfold upsertResult
    split
    next hany =>
      have := hcountMapPoor df fn mt s pt g
      rw [this]
      exact hinv g
    next hany =>
      rw [List.countP_append]
      by_cases hg : fn = g
      · subst hg
        have hzero : df.countP (fun r => r.filename == fn) = 0 := by
          rw [List.countP_eq_zero]
          intro r hr hb
          exact hany (List.any_eq_true.mpr ⟨r, hr, hb⟩)
        rw [hzero]
        simp
      · have : ((⟨fn, mt, s, pt⟩ : LedgerRow).filename == g) = false := by
          simp [hg]
        simp [List.countP_cons, this]
        exact hinv g
  · intro df fn pt rc h
    unfold record_failed_upsert
    rw [if_neg]
    simp only [List.any_eq_true, not_exists, not_and]
    intro r hr
    exact fun hb => (List.countP_eq_zero.mp h r hr) hb
  · intro df fn pt rc
    unfold record_failed_upsert
    split
    · rw [List.length_map]
    · rw [List.length_append]; omega
  · intro df fn pt rc hinv g
    unfold record_failed_upsert
    split
    next hany =>
      rw [List.countP_map]
      have heq : df.countP ((fun r => r.filename == g) ∘ (fun r =>
          if r.filename == fn then
            { r with success := false, process_time := pt,
                     last_update_time := "FAILED", retry_count := rc }
          else r)) = df.countP (fun r => r.filename == g) := by
        apply List.countP_congr
        intro r _
        by_cases hb : r.filename == fn
        · simp [Function.comp, hb]
        · simp [Function.comp, hb]
      rw [heq]
      exact hinv g
    next hany =>
      rw [List.countP_append]
      by_cases hg : fn = g
      · subst hg
        have hzero : df.countP (fun r => r.filename == fn) = 0 := by
          rw [List.countP_eq_zero]
          intro r hr hb
          exact hany (List.any_eq_true.mpr ⟨r, hr, hb⟩)
        rw [hzero]
        simp
      · have : ((⟨fn, "FAILED", false, pt, rc⟩ : LedgerRow5).filename == g) = false := by
          simp [hg]
        simp [List.countP_cons, this]
        exact hinv g

/-- C4 witness: two upserts of the fresh filename `f` leave exactly one
row, holding the second call's values. -/
theorem c4_witness :
    (([] : List LedgerRow).countP (fun r => r.filename == "f") = 0) ∧
    (upsertResult (upsertResult [] "f" "m1" true "p1") "f" "m2" false "p2"
        = [] ++ [⟨"f", "m2", false, "p2"⟩] ∧
     (upsertResult (upsertResult [] "f" "m1" true "p1") "f" "m2" false "p2").countP
        (fun r => r.filename == "f") = 1) :=
  ⟨by decide, c4_ledger_upsert.2.2.1 [] "f" "m1" true "p1" "m2" false "p2" (by decide)⟩

/-- Helper: after any ledger upsert a row for the upserted filename exists
and carries the upserted success flag. -/
theorem upsertResult_mem (df : List LedgerRow) (fn mt : String) (s : Bool) (pt : String) :
    ∃ row ∈ upsertResult df fn mt s pt, row.filename = fn ∧ row.success = s := by
  unfold upsertResult
  by_cases h : df.any (fun r => r.filename == fn) = true
  · rw [if_pos h]
    obtain ⟨r, hr, hrf⟩ := List.any_eq_true.mp h
    refine ⟨{ r with last_update_time := mt, success := s, process_time := pt },
      List.mem_map.mpr ⟨r, hr, by rw [if_pos hrf]⟩, ?_, rfl⟩
    exact eq_of_beq hrf
  · rw [if_neg h]
    exact ⟨⟨fn, mt, s, pt⟩, by simp, rfl, rfl⟩

/-- C1: the claim reads "at least 3 of the 4 current-price fields are
present".  On `c1PageA` the pipeline marks the run successful although
none of the four named fields (開盤/最高/最低/收盤) is present: the gate
counts raw dict entries, whose keys need only contain a price token. -/
theorem c1_counterexample :
    (scrape_core c1PageA none 7 "甲" "u" "T" "M" "P").success = true ∧
    canonicalFieldCount
      (extract_data_with_validation c1PageA.tables).current_prices = 0 ∧
    (extract_data_with_validation c1PageA.tables).current_prices.length = 3 ∧
    0 < (extract_data_with_validation c1PageA.tables).daily_prices.length ∧
    0 < (extract_data_with_validation c1PageA.tables).ownership_data.length := by
  exact ⟨by decide, by decide, by decide, by decide, by decide⟩

/-- C1 (amended): a run is marked successful — in the returned flag and in
the ledger row upserted for the identifier's filename — iff the extracted
current-price dict has at least 3 entries (keys are cell texts containing a
price token, not necessarily the four named slots) AND at least 1 daily
record AND at least 1 ownership record; the document is always written,
gate or no gate.  The claim's 4/0/5 instance: four named current-price
fields, zero daily records, five ownership records is marked failed while
the document is still produced. -/
theorem c1_success_gate (page : HtmlPage) (ledger0 : Option (List LedgerRow))
    (stock_id : Int) (stock_name url scrape_time file_mod_time process_time : String) :
    ((scrape_core page ledger0 stock_id stock_name url scrape_time file_mod_time
        process_time).success = true ↔
      (3 ≤ (extract_data_with_validation page.tables).current_prices.length ∧
       0 < (extract_data_with_validation page.tables).daily_prices.length ∧
       0 < (extract_data_with_validation page.tables).ownership_data.length)) ∧
    (scrape_core page ledger0 stock_id stock_name url scrape_time file_mod_time
        process_time).document
      = buildContent page (extract_data_with_validation page.tables) stock_id
          stock_name url scrape_time ∧
    (∃ row ∈ (scrape_core page ledger0 stock_id stock_name url scrape_time
        file_mod_time process_time).ledger,
        row.filename = expectedFilename stock_id stock_name ∧
        row.success = (scrape_core page ledger0 stock_id stock_name url scrape_time
          file_mod_time process_time).success) ∧
    (scrape_core c1PageB none 7 "甲" "u" "T" "M" "P").success = false ∧
    canonicalFieldCount (extract_data_with_validation c1PageB.tables).current_prices = 4 ∧
    (extract_data_with_validation c1PageB.tables).daily_prices.length = 0 ∧
    (extract_data_with_validation c1PageB.tables).ownership_data.length = 5 ∧
    (scrape_core c1PageB none 7 "甲" "u" "T" "M" "P").document ≠ "" := by
  refine ⟨?_, rfl, ?_, by decide, by decide, by decide, by decide, ?_⟩
  · show bundleSuccess (extract_data_with_validation page.tables) = true ↔ _
    simp [bundleSuccess, Bool.and_eq_true, decide_eq_true_eq, and_assoc]
  · exact upsertResult_mem (ledger0.getD []) (expectedFilename stock_id stock_name)
      file_mod_time (bundleSuccess (extract_data_with_validation page.tables))
      process_time
  · decide

/-- Helper: string equality from character-list equality. -/
theorem strOfDataEq {a b : String} (h : a.data = b.data) : a = b :=
  congrArg String.mk h

/-- Helper: the newline-collapse scan is the identity on newline-free text. -/
theorem collapseAux_no_nl (t : List Char) (ht : ∀ c ∈ t, c ≠ '\n') :
    collapseAux 0 t = t := by
  induction t with
  | nil => rfl
  | cons c cs ih =>
      have hc : c ≠ '\n' := ht c (List.mem_cons_self c cs)
      unfold collapseAux
      rw [if_neg hc]
      rw [ih (fun x hx => ht x (List.mem_cons_of_mem c hx))]
      simp [collapseEmit]

/-- Helper: on newline-free text a pending run is flushed in front. -/
theorem collapseAux_run_no_nl (t : List Char) (ht : ∀ c ∈ t, c ≠ '\n') (run : Nat) :
    collapseAux run t = collapseEmit run ++ t := by
  cases t with
  | nil => simp [collapseAux]
  | cons c cs =>
      have hc : c ≠ '\n' := ht c (List.mem_cons_self c cs)
      unfold collapseAux
      rw [if_neg hc]
      rw [collapseAux_no_nl cs (fun x hx => ht x (List.mem_cons_of_mem c hx))]

/-- Helper: the collapse scan distributes over a newline-free suffix. -/
theorem collapseAux_append_no_nl (t : List Char) (ht : ∀ c ∈ t, c ≠ '\n') :
    ∀ (s : List Char) (run : Nat), collapseAux run (s ++ t) = collapseAux run s ++ t := by
  intro s
  induction s with
  | nil =>
      intro run
      simpa [collapseAux] using collapseAux_run_no_nl t ht run
  | cons c cs ih =>
      intro run
      simp only [List.cons_append]
      unfold collapseAux
      by_cases hc : c = '\n'
      · rw [if_pos hc, if_pos hc]
        exact ih (run + 1)
      · rw [if_neg hc, if_neg hc]
        rw [ih 0]
        simp [List.append_assoc]

/-- Helper: appending a final part to a nonempty join inserts one newline. -/
theorem joinParts_append_last (xs : List String) (y : String) (h : xs ≠ []) :
    (joinParts (xs ++ [y])).data = (joinParts xs).data ++ '\n' :: y.data := by
  induction xs with
  | nil => cases h rfl
  | cons x xs ih =>
      cases xs with
      | nil =>
          show (joinParts [x, y]).data = (joinParts [x]).data ++ '\n' :: y.data
          simp [joinParts, String.data_append]
      | cons z zs =>
          show (joinParts (x :: ((z :: zs) ++ [y]))).data = _
          rw [List.cons_append]
          show (x ++ "\n" ++ joinParts (z :: (zs ++ [y]))).data = _
          rw [show z :: (zs ++ [y]) = (z :: zs) ++ [y] from rfl]
          simp only [String.data_append, ih (by simp), joinParts]
          simp [String.data_append, List.append_assoc]

/-- Helper: the document part list is never empty. -/
theorem contentPartsCore_ne_nil (page : HtmlPage) (data : ExtractData) (stock_id : Int)
    (stock_name url : String) :
    contentPartsCore page data stock_id stock_name url ≠ [] := by
  unfold contentPartsCore
  cases page.title <;> simp

/-- Helper: the built document is the timestamp-free prefix followed by
the (newline-free) scrape timestamp. -/
theorem buildContent_split (page : HtmlPage) (data : ExtractData) (stock_id : Int)
    (stock_name url now : String) (hnow : ∀ c ∈ now.data, c ≠ '\n') :
    buildContent page data stock_id stock_name url now
      = docPrefix page data stock_id stock_name url ++ now := by
  unfold buildContent docPrefix collapseNewlines
  apply strOfDataEq
  rw [String.data_append]
  show collapseAux 0 (joinParts (contentPartsCore page data stock_id stock_name url
      ++ ["**抓取時間:** " ++ now])).data = _
  rw [joinParts_append_last _ _ (contentPartsCore_ne_nil page data stock_id stock_name url)]
  have hsplit : (joinParts (contentPartsCore page data stock_id stock_name url)).data
      ++ '\n' :: ("**抓取時間:** " ++ now).data
      = ((joinParts (contentPartsCore page data stock_id stock_name url)).data
         ++ "\n**抓取時間:** ".data) ++ now.data := by
    rw [String.data_append]
    simp [List.append_assoc]
  rw [hsplit]
  exact collapseAux_append_no_nl now.data hnow _ 0

/-- C3: the claim says two runs over unchanged page content yield
byte-identical documents with `success=true` both times.  On `c3Page` both
runs succeed, yet the documents differ: the wall-clock scrape timestamp is
embedded in the document itself (the `**抓取時間:**` metadata line), so
runs one second apart are not byte-identical. -/
theorem c3_counterexample :
    (scrape_core c3Page none 7 "甲" "u" "2025-01-01 00:00:00" "M" "P").success = true ∧
    (scrape_core c3Page
        (some (scrape_core c3Page none 7 "甲" "u" "2025-01-01 00:00:00" "M" "P").ledger)
        7 "甲" "u" "2025-01-01 00:00:01" "M2" "P2").success = true ∧
    (scrape_core c3Page none 7 "甲" "u" "2025-01-01 00:00:00" "M" "P").document ≠
      (scrape_core c3Page
        (some (scrape_core c3Page none 7 "甲" "u" "2025-01-01 00:00:00" "M" "P").ledger)
        7 "甲" "u" "2025-01-01 00:00:01" "M2" "P2").document := by
  refine ⟨by decide, by decide, ?_⟩
  intro h
  have hd1 : (scrape_core c3Page none 7 "甲" "u" "2025-01-01 00:00:00" "M" "P").document
      = buildContent c3Page (extract_data_with_validation c3Page.tables) 7 "甲" "u"
          "2025-01-01 00:00:00" := rfl
  have hd2 : (scrape_core c3Page
      (some (scrape_core c3Page none 7 "甲" "u" "2025-01-01 00:00:00" "M" "P").ledger)
      7 "甲" "u" "2025-01-01 00:00:01" "M2" "P2").document
      = buildContent c3Page (extract_data_with_validation c3Page.tables) 7 "甲" "u"
          "2025-01-01 00:00:01" := rfl
  rw [hd1, hd2,
    buildContent_split c3Page (extract_data_with_validation c3Page.tables) 7 "甲" "u"
      "2025-01-01 00:00:00" (by decide),
    buildContent_split c3Page (extract_data_with_validation c3Page.tables) 7 "甲" "u"
      "2025-01-01 00:00:01" (by decide)] at h
  have hdata := congrArg String.data h
  simp only [String.data_append] at hdata
  have htail := List.append_cancel_left hdata
  exact absurd htail (by decide)

/-- C3 (amended): re-running on unchanged page content yields the same
success flag, documents that are identical except for the trailing scrape
timestamp (both equal a common prefix followed by the run's timestamp),
and a single ledger row for the identifier holding the shared success flag
and the latest run's file-modification and process timestamps. -/
theorem c3_rerun_timestamp_only (page : HtmlPage) (stock_id : Int)
    (stock_name url t1 m1 p1 t2 m2 p2 : String)
    (h1 : ∀ c ∈ t1.data, c ≠ '\n') (h2 : ∀ c ∈ t2.data, c ≠ '\n') :
    (scrape_core page none stock_id stock_name url t1 m1 p1).success
      = (scrape_core page
          (some (scrape_core page none stock_id stock_name url t1 m1 p1).ledger)
          stock_id stock_name url t2 m2 p2).success ∧
    (scrape_core page none stock_id stock_name url t1 m1 p1).document
      = docPrefix page (extract_data_with_validation page.tables) stock_id stock_name url
          ++ t1 ∧
    (scrape_core page
        (some (scrape_core page none stock_id stock_name url t1 m1 p1).ledger)
        stock_id stock_name url t2 m2 p2).document
      = docPrefix page (extract_data_with_validation page.tables) stock_id stock_name url
          ++ t2 ∧
    (scrape_core page
        (some (scrape_core page none stock_id stock_name url t1 m1 p1).ledger)
        stock_id stock_name url t2 m2 p2).ledger
      = [⟨expectedFilename stock_id stock_name, m2,
          bundleSuccess (extract_data_with_validation page.tables), p2⟩] := by
  refine ⟨rfl,
    buildContent_split page (extract_data_with_validation page.tables) stock_id
      stock_name url t1 h1,
    buildContent_split page (extract_data_with_validation page.tables) stock_id
      stock_name url t2 h2, ?_⟩
  show upsertResult
      (upsertResult [] (expectedFilename stock_id stock_name) m1
        (bundleSuccess (extract_data_with_validation page.tables)) p1)
      (expectedFilename stock_id stock_name) m2
      (bundleSuccess (extract_data_with_validation page.tables)) p2 = _
  rw [upsertResult_absent [] _ _ _ _ (by simp)]
  simp only [List.nil_append]
  unfold upsertResult
  rw [if_pos (by simp)]
  simp

/-- C3 witness: on a trivial page the first run's document is the common
prefix followed by the first timestamp. -/
theorem c3_witness :
    (∀ c ∈ ("A" : String).data, c ≠ '\n') ∧
    (scrape_core ⟨0, "", none, []⟩ none 1 "N" "u" "A" "m1" "p1").document
      = docPrefix ⟨0, "", none, []⟩
          (extract_data_with_validation (⟨0, "", none, []⟩ : HtmlPage).tables) 1 "N" "u"
          ++ "A" :=
  ⟨by decide,
    (c3_rerun_timestamp_only ⟨0, "", none, []⟩ 1 "N" "u" "A" "m1" "p1" "B" "m2" "p2"
      (by decide) (by decide)).2.1⟩

/-- Helper: membership in a recommendation bucket. -/
theorem mem_bucketIds (stocks : List StockRow) (fs : FileSys) (rec : String) (x : Int) :
    x ∈ bucketIds stocks fs rec ↔
      ∃ s ∈ stocks, recommendationFor fs s = rec ∧ s.code = x := by
  simp only [bucketIds, List.mem_map, List.mem_filter, beq_iff_eq]
  constructor
  · rintro ⟨s, ⟨hs, hrec⟩, hc⟩
    exact ⟨s, hs, hrec, hc⟩
  · rintro ⟨s, hs, hrec, hc⟩
    exact ⟨s, ⟨hs, hrec⟩, hc⟩

/-- Helper: membership in the deduplicated failed-id accumulation. -/
theorem dedupFailedIds_mem (priority_stocks : List Int) (failed_files : List String)
    (x : Int) :
    x ∈ dedupFailedIds priority_stocks failed_files ↔
      (∃ fn ∈ failed_files, parseStockId fn = some x) ∧ x ∉ priority_stocks := by
  have key : ∀ (files : List String) (acc : List Int),
      x ∈ files.foldl (fun acc fn =>
        match parseStockId fn with
        | some sid =>
            if priority_stocks.contains sid || acc.contains sid then acc
            else acc ++ [sid]
        | none => acc) acc ↔
      x ∈ acc ∨ ((∃ fn ∈ files, parseStockId fn = some x) ∧ x ∉ priority_stocks) := by
    intro files
    induction files with
    | nil => simp
    | cons fn rest ih =>
        intro acc
        simp only [List.foldl_cons]
        cases hp : parseStockId fn with
        | none =>
            rw [ih]
            simp only [List.mem_cons]
            constructor
            · rintro (h | ⟨⟨g, hg, hgx⟩, hx⟩)
              · exact Or.inl h
              · exact Or.inr ⟨⟨g, Or.inr hg, hgx⟩, hx⟩
            · rintro (h | ⟨⟨g, hg, hgx⟩, hx⟩)
              · exact Or.inl h
              · rcases hg with rfl | hg
                · rw [hp] at hgx; cases hgx
                · exact Or.inr ⟨⟨g, hg, hgx⟩, hx⟩
        | some sid =>
            have hred : (match some sid with
                | some sid =>
                    if (priority_stocks.contains sid || acc.contains sid) = true
                    then acc else acc ++ [sid]
                | none => acc)
                = if (priority_stocks.contains sid || acc.contains sid) = true
                  then acc else acc ++ [sid] := rfl
            rw [hred]
            by_cases hcond : (priority_stocks.contains sid || acc.contains sid) = true
            · rw [if_pos hcond, ih]
              simp only [List.mem_cons]
              rcases Bool.or_eq_true .. |>.mp hcond with hpc | hac
              · have hpmem : sid ∈ priority_stocks := by
                  simpa [List.contains, List.elem_iff] using hpc
                constructor
                · rintro (h | ⟨⟨g, hg, hgx⟩, hx⟩)
                  · exact Or.inl h
                  · exact Or.inr ⟨⟨g, Or.inr hg, hgx⟩, hx⟩
                · rintro (h | ⟨⟨g, hg, hgx⟩, hx⟩)
                  · exact Or.inl h
                  · rcases hg with rfl | hg
                    · rw [hp] at hgx
                      cases hgx
                      exact absurd hpmem hx
                    · exact Or.inr ⟨⟨g, hg, hgx⟩, hx⟩
              · have hamem : sid ∈ acc := by
                  simpa [List.contains, List.elem_iff] using hac
                constructor
                · rintro (h | ⟨⟨g, hg, hgx⟩, hx⟩)
                  · exact Or.inl h
                  · exact Or.inr ⟨⟨g, Or.inr hg, hgx⟩, hx⟩
                · rintro (h | ⟨⟨g, hg, hgx⟩, hx⟩)
                  · exact Or.inl h
                  · rcases hg with rfl | hg
                    · rw [hp] at hgx
                      cases hgx
                      exact Or.inl hamem
                    · exact Or.inr ⟨⟨g, hg, hgx⟩, hx⟩
            · rw [if_neg hcond, ih]
              have hpfree : sid ∉ priority_stocks := by
                intro hmem
                apply hcond
                apply Bool.or_eq_true .. |>.mpr
                exact Or.inl (by simpa [List.contains, List.elem_iff] using hmem)
              simp only [List.mem_append, List.mem_cons]
              constructor
              · rintro ((h | rfl | h0) | ⟨⟨g, hg, hgx⟩, hx⟩)
                · exact Or.inl h
                · exact Or.inr ⟨⟨fn, Or.inl rfl, hp⟩, hpfree⟩
                · exact absurd h0 (List.not_mem_nil x)
                · exact Or.inr ⟨⟨g, Or.inr hg, hgx⟩, hx⟩
              · rintro (h | ⟨⟨g, hg, hgx⟩, hx⟩)
                · exact Or.inl (Or.inl h)
                · rcases hg with rfl | hg
                  · rw [hp] at hgx
                    cases hgx
                    exact Or.inl (Or.inr (Or.inl rfl))
                  · exact Or.inr ⟨⟨g, hg, hgx⟩, hx⟩
  rw [dedupFailedIds, key]
  simp

/-- C5 (amended): when the ledger read succeeds, a PRIORITY queue is
exactly the union of the retry, unprocessed and ledger-failed buckets; an
identifier recommended `refresh` is excluded unless it is also recorded
failed in the ledger; a REFRESH queue is a ≤20-element prefix sample of
the refresh bucket, taken only when all three priority buckets are empty;
and with nothing to do the queue is empty.  With 2 unprocessed and 3
refresh-eligible identifiers and no failures, the queue is exactly the 2
unprocessed identifiers. -/
theorem c5_strategy_amended (stocks : List StockRow) (fs : FileSys)
    (results : Option DataFrame) (strat : String) (queue : List Int) (fids : List Int)
    (hdet : determine_processing_strategy stocks fs results = Except.ok (strat, queue))
    (hfids : retry_failed_ids results = Except.ok fids)
    (hnodup : (stocks.map (fun s => s.code)).Nodup) :
    (strat = "PRIORITY" →
      ∀ x, x ∈ queue ↔
        (x ∈ bucketIds stocks fs "retry" ∨ x ∈ bucketIds stocks fs "process"
          ∨ x ∈ fids)) ∧
    (strat = "PRIORITY" →
      ∀ s ∈ stocks, recommendationFor fs s = "refresh" → s.code ∉ fids →
        s.code ∉ queue) ∧
    (strat = "REFRESH" →
      queue = (bucketIds stocks fs "refresh").take 20 ∧ queue.length ≤ 20 ∧
      bucketIds stocks fs "retry" = [] ∧ bucketIds stocks fs "process" = [] ∧
      fids = []) ∧
    (strat = "UP_TO_DATE" → queue = []) ∧
    determine_processing_strategy c5wStocks c5wFs none
      = Except.ok ("PRIORITY", [1, 2]) := by
  obtain ⟨files, hdet2, hfids2⟩ :
      ∃ files : List String,
        determine_processing_strategy stocks fs results
          = (if (!(bucketIds stocks fs "retry").isEmpty
                || !(bucketIds stocks fs "process").isEmpty
                || !(dedupFailedIds (bucketIds stocks fs "retry") files).isEmpty) = true then
               Except.ok ("PRIORITY",
                 bucketIds stocks fs "retry" ++ bucketIds stocks fs "process"
                   ++ dedupFailedIds (bucketIds stocks fs "retry") files)
             else if (!(bucketIds stocks fs "refresh").isEmpty) = true then
               Except.ok ("REFRESH", (bucketIds stocks fs "refresh").take 20)
             else Except.ok ("UP_TO_DATE", [])) ∧
        fids = files.filterMap parseStockId := by
    cases results with
    | none =>
        refine ⟨[], rfl, ?_⟩
        have h0 : retry_failed_ids none = Except.ok [] := rfl
        rw [h0] at hfids
        injection hfids with h
        exact h.symm
    | some df =>
        cases hlf : ledgerFailedFiles df with
        | error e =>
            exfalso
            have hbad : determine_processing_strategy stocks fs (some df)
                = Except.error e := by
              simp [determine_processing_strategy, hlf]
            rw [hbad] at hdet
            simp at hdet
        | ok files =>
            refine ⟨files, ?_, ?_⟩
            · simp [determine_processing_strategy, hlf]
            · have h0 : retry_failed_ids (some df)
                  = Except.ok (files.filterMap parseStockId) := by
                simp [retry_failed_ids, hlf]
              rw [h0] at hfids
              injection hfids with h
              exact h.symm
  rw [hdet2] at hdet
  have hinj := List.inj_on_of_nodup_map hnodup
  by_cases hc1 : (!(bucketIds stocks fs "retry").isEmpty
      || !(bucketIds stocks fs "process").isEmpty
      || !(dedupFailedIds (bucketIds stocks fs "retry") files).isEmpty) = true
  · rw [if_pos hc1] at hdet
    injection hdet with hpair
    injection hpair with hstrat hqueue
    refine ⟨?_, ?_, ?_, ?_, by rfl⟩
    · intro _ x
      rw [← hqueue]
      simp only [List.mem_append, dedupFailedIds_mem, hfids2, List.mem_filterMap]
      constructor
      · rintro ((hP | hU) | hD)
        · exact Or.inl hP
        · exact Or.inr (Or.inl hU)
        · exact Or.inr (Or.inr hD.1)
      · rintro (hP | hU | hF)
        · exact Or.inl (Or.inl hP)
        · exact Or.inl (Or.inr hU)
        · by_cases hP : x ∈ bucketIds stocks fs "retry"
          · exact Or.inl (Or.inl hP)
          · exact Or.inr ⟨hF, hP⟩
    · intro _ s hs hrec hnf hmem
      rw [← hqueue] at hmem
      simp only [List.mem_append, dedupFailedIds_mem, hfids2, List.mem_filterMap]
        at hmem hnf
      rcases hmem with (hP | hU) | hD
      · obtain ⟨s2, hs2, hrec2, hc2⟩ := (mem_bucketIds stocks fs "retry" s.code).mp hP
        have hss : s2 = s := hinj hs2 hs hc2
        subst hss
        rw [hrec] at hrec2
        exact absurd hrec2 (by decide)
      · obtain ⟨s2, hs2, hrec2, hc2⟩ := (mem_bucketIds stocks fs "process" s.code).mp hU
        have hss : s2 = s := hinj hs2 hs hc2
        subst hss
        rw [hrec] at hrec2
        exact absurd hrec2 (by decide)
      · exact hnf hD.1
    · intro hR
      rw [hR] at hstrat
      exact absurd hstrat (by decide)
    · intro hR
      rw [hR] at hstrat
      exact absurd hstrat (by decide)
  · rw [if_neg hc1] at hdet
    have hPe : (bucketIds stocks fs "retry").isEmpty = true ∧
        (bucketIds stocks fs "process").isEmpty = true ∧
        (dedupFailedIds (bucketIds stocks fs "retry") files).isEmpty = true := by
      rcases hP : (bucketIds stocks fs "retry").isEmpty <;>
        rcases hU : (bucketIds stocks fs "process").isEmpty <;>
        rcases hD : (dedupFailedIds (bucketIds stocks fs "retry") files).isEmpty <;>
        simp_all
    obtain ⟨hPe1, hUe1, hDe1⟩ := hPe
    have hPnil : bucketIds stocks fs "retry" = [] := List.isEmpty_iff.mp hPe1
    have hUnil : bucketIds stocks fs "process" = [] := List.isEmpty_iff.mp hUe1
    have hDnil : dedupFailedIds (bucketIds stocks fs "retry") files = [] :=
      List.isEmpty_iff.mp hDe1
    have hfidsnil : fids = [] := by
      rw [hfids2]
      rw [List.eq_nil_iff_forall_not_mem]
      intro x hx
      obtain ⟨fn, hfn, hpx⟩ := List.mem_filterMap.mp hx
      have hxd : x ∈ dedupFailedIds (bucketIds stocks fs "retry") files := by
        rw [dedupFailedIds_mem]
        exact ⟨⟨fn, hfn, hpx⟩, by rw [hPnil]; exact List.not_mem_nil x⟩
      rw [hDnil] at hxd
      exact List.not_mem_nil x hxd
    by_cases hc2 : (!(bucketIds stocks fs "refresh").isEmpty) = true
    · rw [if_pos hc2] at hdet
      injection hdet with hpair
      injection hpair with hstrat hqueue
      refine ⟨?_, ?_, ?_, ?_, by rfl⟩
      · intro hR
        rw [hR] at hstrat
        exact absurd hstrat (by decide)
      · intro hR
        rw [hR] at hstrat
        exact absurd hstrat (by decide)
      · intro _
        refine ⟨hqueue.symm, ?_, hPnil, hUnil, hfidsnil⟩
        rw [← hqueue, List.length_take]
        omega
      · intro hR
        rw [hR] at hstrat
        exact absurd hstrat (by decide)
    · rw [if_neg hc2] at hdet
      injection hdet with hpair
      injection hpair with hstrat hqueue
      refine ⟨?_, ?_, ?_, ?_, by rfl⟩
      · intro hR
        rw [hR] at hstrat
        exact absurd hstrat (by decide)
      · intro hR
        rw [hR] at hstrat
        exact absurd hstrat (by decide)
      · intro hR
        rw [hR] at hstrat
        exact absurd hstrat (by decide)
      · intro _
        exact hqueue.symm

/-- C5: the claim says no refresh-eligible identifier is ever included in
the priority queue.  Stock 7's saved file is complete but aged
(recommendation `refresh`), yet the ledger records it failed, so the
orchestrator queues it: a refresh-eligible identifier appears in the
work queue. -/
theorem c5_counterexample :
    recommendationFor c5Fs ⟨7, "甲"⟩ = "refresh" ∧
    determine_processing_strategy c5Stocks c5Fs (some c5Ledger)
      = Except.ok ("PRIORITY", [7]) := by
  exact ⟨by rfl, by rfl⟩

/-- C5 witness: the 2-unprocessed/3-refresh universe satisfies the
hypotheses, and the membership characterization holds for its queue. -/
theorem c5_witness :
    determine_processing_strategy c5wStocks c5wFs none
      = Except.ok ("PRIORITY", [1, 2]) ∧
    retry_failed_ids none = Except.ok [] ∧
    (c5wStocks.map (fun s => s.code)).Nodup ∧
    (("PRIORITY" : String) = "PRIORITY" →
      ∀ x, x ∈ ([1, 2] : List Int) ↔
        (x ∈ bucketIds c5wStocks c5wFs "retry" ∨ x ∈ bucketIds c5wStocks c5wFs "process"
          ∨ x ∈ ([] : List Int))) :=
  ⟨by rfl, by rfl, by decide,
    (c5_strategy_amended c5wStocks c5wFs none "PRIORITY" [1, 2] []
      (by rfl) (by rfl) (by decide)).1⟩

/-- C7: the claim says a ledger missing an expected column is treated as an
empty ledger and does not crash.  With the `success` column missing, both
orchestrator reads raise the pandas `KeyError` instead of the empty-ledger
result that a missing file produces. -/
theorem c7_counterexample :
    determine_processing_strategy [] [] (some c7BadLedger)
      = Except.error "KeyError: success" ∧
    retry_failed_ids (some c7BadLedger) = Except.error "KeyError: success" ∧
    determine_processing_strategy [] [] none = Except.ok ("UP_TO_DATE", []) := by
  exact ⟨by rfl, by rfl, by rfl⟩

/-- C7 (amended): a missing ledger file is treated exactly like a
header-only ledger with the full schema — every orchestrator read yields
the empty-ledger result without failing — and the next failure write over
a missing file synthesizes a fresh ledger with the full five-column
schema; only a ledger missing an expected column makes the reads raise. -/
theorem c7_ledger_tolerance :
    (∀ (stocks : List StockRow) (fs : FileSys),
        determine_processing_strategy stocks fs none
          = determine_processing_strategy stocks fs (some c7EmptyLedger)) ∧
    (∀ (stocks : List StockRow) (fs : FileSys),
        ∃ out, determine_processing_strategy stocks fs none = Except.ok out) ∧
    (retry_failed_ids none = Except.ok [] ∧
     retry_failed_ids (some c7EmptyLedger) = Except.ok []) ∧
    (∀ (fn pt : String) (rc : Int), record_failed_df none fn pt rc =
        Except.ok ⟨ledgerCols5,
          [[Cell.s fn, Cell.s "FAILED", Cell.b false, Cell.s pt, Cell.i rc]]⟩) := by
  refine ⟨?_, ?_, ⟨rfl, rfl⟩, ?_⟩
  · intro stocks fs
    rfl
  · intro stocks fs
    show ∃ out,
      (if (!(bucketIds stocks fs "retry").isEmpty
            || !(bucketIds stocks fs "process").isEmpty
            || !(dedupFailedIds (bucketIds stocks fs "retry") []).isEmpty) = true then
        Except.ok ("PRIORITY", bucketIds stocks fs "retry" ++ bucketIds stocks fs "process"
          ++ dedupFailedIds (bucketIds stocks fs "retry") [])
       else if (!(bucketIds stocks fs "refresh").isEmpty) = true then
        Except.ok ("REFRESH", (bucketIds stocks fs "refresh").take 20)
       else Except.ok ("UP_TO_DATE", [])) = Except.ok out
    split
    · exact ⟨_, rfl⟩
    · split
      · exact ⟨_, rfl⟩
      · exact ⟨_, rfl⟩
  · intro fn pt rc
    rfl
